import Mathlib

/-!
Verification of the transform-and-load pipeline in `src/upload.py`
(BudgetWebAppData).

The file shallowly embeds the pure transformation logic of the source:

* `Util.sanitize_columns` (upload.py lines 445-450) — the Column Normalizer;
* `Util.import_func` (upload.py lines 396-433) — the Schema-Aware Bulk
  Loader, modelled as a pure function returning the load outcome together
  with the effects (insert executed, commit) that occurred;
* the wide-to-long melt logic of `Migration._import_budget_rad`
  (lines 185-201) and `Migration._import_journal_entry` (lines 288-307);
* the inline type coercions of `Migration._import_budget` (lines 219-221)
  and `Migration._import_journal_entry_rad` (lines 254-267);
* the orchestration of `Migration.import_all` (lines 98-112).

Strings of the source are modelled either as Lean `String` (column names)
or as `List Char` (cell values, where character-level reasoning is needed);
missing values (pandas `NaN`) are modelled as `Option.none`.
-/

namespace Upload

/-! ## Column Normalizer (`Util.sanitize_columns`, upload.py 445-450)

The source performs, on every column name of the data frame, in order:
`str.replace(" ", "_")`, `str.lower()`, `str.replace("/", "")`,
`str.replace(".", "")` (pandas `Series.str` ops; the two removals are
literal, the per-character lowering is `Char.toLower` on basic latin,
matching `str.lower` on ASCII names).  All four are character-wise, so the
embedding composes them per character. -/

/-- One character of a column name after `replace(" ", "_")` and `lower()`. -/
def sanitizeChar (c : Char) : Char :=
  Char.toLower (if c = ' ' then '_' else c)

/-- Characters removed by `str.replace("/", "")` and `str.replace(".", "")`. -/
def keepChar (c : Char) : Bool :=
  !(c == '/' || c == '.')

/-- The character-list form of one sanitized column name. -/
def sanitizeChars (l : List Char) : List Char :=
  (l.map sanitizeChar).filter keepChar

/-- One column name through `Util.sanitize_columns`. -/
def sanitizeName (s : String) : String :=
  String.mk (sanitizeChars s.toList)

/-- `Util.sanitize_columns` (upload.py 445-450): the data frame's column
index is mapped name-by-name; the function never raises and keeps one
output column per input column (pandas permits duplicate column labels). -/
def sanitize_columns (cols : List String) : List String :=
  cols.map sanitizeName

/-! Facts about `Char.toLower` needed for idempotence. -/

theorem char_toNat_ofNat {m : Nat} (h : m < 55296) : (Char.ofNat m).toNat = m := by
  rw [Char.ofNat, dif_pos (Or.inl h)]
  rfl

theorem toLower_toLower (c : Char) : c.toLower.toLower = c.toLower := by
  unfold Char.toLower
  by_cases h : c.toNat ≥ 65 ∧ c.toNat ≤ 90
  · rw [if_pos h]
    have hv : c.toNat + 32 < 55296 := by omega
    rw [char_toNat_ofNat hv, if_neg (by omega)]
  · rw [if_neg h, if_neg h]

theorem toLower_ne_space {c : Char} (h : c ≠ ' ') : c.toLower ≠ ' ' := by
  unfold Char.toLower
  by_cases hb : c.toNat ≥ 65 ∧ c.toNat ≤ 90
  · rw [if_pos hb]
    intro he
    have := congrArg Char.toNat he
    rw [char_toNat_ofNat (by omega)] at this
    have : c.toNat + 32 = 32 := this
    omega
  · rw [if_neg hb]
    exact h

theorem sanitizeChar_idem (c : Char) : sanitizeChar (sanitizeChar c) = sanitizeChar c := by
  unfold sanitizeChar
  have hne : (if c = ' ' then '_' else c) ≠ ' ' := by
    by_cases h : c = ' '
    · rw [if_pos h]; decide
    · rw [if_neg h]; exact h
  rw [if_neg (toLower_ne_space hne), toLower_toLower]

theorem sanitizeChars_fix (l : List Char) :
    ∀ y ∈ sanitizeChars l, sanitizeChar y = y ∧ keepChar y = true := by
  intro y hy
  unfold sanitizeChars at hy
  have hk := List.of_mem_filter hy
  have hm := List.mem_of_mem_filter hy
  rcases List.mem_map.mp hm with ⟨x, _, hx⟩
  exact ⟨hx ▸ sanitizeChar_idem x, hk⟩

theorem sanitizeChars_idem (l : List Char) :
    sanitizeChars (sanitizeChars l) = sanitizeChars l := by
  have hmap : (sanitizeChars l).map sanitizeChar = sanitizeChars l := by
    have := List.map_congr_left (fun y hy => (sanitizeChars_fix l y hy).1)
    simpa using this
  show ((sanitizeChars l).map sanitizeChar).filter keepChar = sanitizeChars l
  rw [hmap]
  exact List.filter_eq_self.mpr (fun y hy => (sanitizeChars_fix l y hy).2)

theorem sanitizeName_idem (s : String) : sanitizeName (sanitizeName s) = sanitizeName s := by
  unfold sanitizeName
  have : (String.mk (sanitizeChars s.toList)).toList = sanitizeChars s.toList := rfl
  rw [this, sanitizeChars_idem]

/-- C9: the Column Normalizer is idempotent — normalizing an
already-normalized column set is a no-op: for every column set `cs`,
`sanitize_columns (sanitize_columns cs) = sanitize_columns cs`. -/
theorem sanitize_columns_idempotent (cs : List String) :
    sanitize_columns (sanitize_columns cs) = sanitize_columns cs := by
  unfold sanitize_columns
  rw [List.map_map]
  exact List.map_congr_left (fun s _ => sanitizeName_idem s)

/-- C4 counterexample: the source column names "A B" and "a_b" are
distinct, yet `Util.sanitize_columns` maps both to "a_b" and returns the
duplicated pair — the function has no error path, so no `SchemaConflict`
(nor any other exception) is raised on a collision. -/
theorem sanitize_collision_cex :
    ("A B" : String) ≠ "a_b" ∧ sanitize_columns ["A B", "a_b"] = ["a_b", "a_b"] := by
  constructor
  · decide
  · rfl

/-- C4 amended: on a normalization collision, `Util.sanitize_columns`
raises nothing and silently keeps duplicate columns — it is a total
renaming that returns exactly one output name per input name, so two
distinct source columns that normalize to the same name both survive as
duplicates. -/
theorem sanitize_collision_amended (cs : List String) :
    (sanitize_columns cs).length = cs.length := by
  unfold sanitize_columns
  exact List.length_map cs sanitizeName

/-! ## Schema-Aware Bulk Loader (`Util.import_func`, upload.py 396-433)

The source: introspects the target table's columns
(`SELECT column_name FROM information_schema.columns ...`, lines 400-405),
projects the data frame onto the columns present in the table
(`df[[col for col in df.columns if col in table_columns]]`, line 406),
replaces `NaN` and `""` cells by `None` (lines 407-408), raises a
`ValueError` when the projected frame is empty — pandas `DataFrame.empty`
is true when either axis has length zero — (lines 410-413), raises a
`ValueError` when the first row's arity disagrees with the column count
(lines 423-424), and only then runs `executemany` and `commit`
(lines 426-429).  Any exception is re-raised after logging (line 433).

A cell is `Option String`; `none` models pandas `NaN`/`None`. -/

/-- A data frame: a column index plus rows of cells positionally aligned
with the columns. -/
structure DF where
  cols : List String
  rows : List (List (Option String))

/-- Errors of `Util.import_func` (both are the `ValueError`s the source
raises; the spec names the first `EmptyProjection` and the second
`RowShapeMismatch`). -/
inductive ImportError where
  | emptyProjection
  | rowShapeMismatch
deriving DecidableEq, Repr

/-- What a call to `Util.import_func` did: the insert statement actually
executed (columns and row tuples), whether `commit` ran, and the outcome. -/
structure LoadTrace where
  inserted : Option (List String × List (List (Option String)))
  committed : Bool
  outcome : Except ImportError Unit
deriving Repr

/-- Line 406: the projected column list, in data-frame order. -/
def projectedCols (dfCols tableCols : List String) : List String :=
  dfCols.filter (fun c => tableCols.contains c)

/-- Lines 407-408: `NaN` and the empty string both become `None`. -/
def normCell (c : Option String) : Option String :=
  match c with
  | none => none
  | some s => if s = "" then none else some s

/-- One row after the projection of line 406 and the null substitution of
lines 407-408. -/
def projectRow (dfCols tableCols : List String) (r : List (Option String)) :
    List (Option String) :=
  ((dfCols.zip r).filter (fun p => tableCols.contains p.1)).map (fun p => normCell p.2)

/-- `Util.import_func` (upload.py 396-433) as a pure function from the
data frame and the introspected table columns to the trace of effects. -/
def import_func (df : DF) (tableCols : List String) : LoadTrace :=
  let kept := projectedCols df.cols tableCols
  let rows := df.rows.map (projectRow df.cols tableCols)
  match kept, rows with
  | [], _ => ⟨none, false, .error .emptyProjection⟩
  | _ :: _, [] => ⟨none, false, .error .emptyProjection⟩
  | c :: cs, r :: rs =>
    if r.length = (c :: cs).length then
      ⟨some (c :: cs, r :: rs), true, .ok ()⟩
    else
      ⟨none, false, .error .rowShapeMismatch⟩

theorem mem_projectedCols {dfCols tableCols : List String} {c : String} :
    c ∈ projectedCols dfCols tableCols ↔ c ∈ dfCols ∧ c ∈ tableCols := by
  unfold projectedCols
  rw [List.mem_filter]
  constructor
  · rintro ⟨h1, h2⟩
    exact ⟨h1, by simpa [List.contains] using h2⟩
  · rintro ⟨h1, h2⟩
    exact ⟨h1, by simpa [List.contains] using h2⟩

theorem import_func_inserted_cols {df : DF} {tableCols cols : List String}
    {rows : List (List (Option String))}
    (h : (import_func df tableCols).inserted = some (cols, rows)) :
    cols = projectedCols df.cols tableCols := by
  unfold import_func at h
  rcases hk : projectedCols df.cols tableCols with _ | ⟨c, cs⟩
  · simp [hk] at h
  · rcases hr : df.rows.map (projectRow df.cols tableCols) with _ | ⟨r, rs⟩
    · simp [hk, hr] at h
    · simp only [hk, hr] at h
      split at h
      · simp only [Option.some.injEq, Prod.mk.injEq] at h
        exact h.1.symm
      · simp at h

/-- C6: for every dataset and every introspected schema, the column set the
Bulk Loader actually inserts is exactly the intersection of the dataset's
columns and the schema's columns — a column is inserted iff it occurs in
both, so the insert list is never a superset of either side. -/
theorem import_func_projection (df : DF) (tableCols cols : List String)
    (rows : List (List (Option String)))
    (h : (import_func df tableCols).inserted = some (cols, rows)) :
    ∀ c, c ∈ cols ↔ c ∈ df.cols ∧ c ∈ tableCols := by
  intro c
  rw [import_func_inserted_cols h]
  exact mem_projectedCols

/-- C6 witness: a concrete successful load (dataset columns
`id, name, extra`, schema `id, name`) inserts exactly `id, name`; the
dropped column `extra` is in the dataset but not in the insert set. -/
theorem import_func_projection_witness :
    ("extra" ∈ (["id", "name"] : List String) ↔
      "extra" ∈ (DF.mk ["id", "name", "extra"] [[some "1", some "x", some "y"]]).cols ∧
        "extra" ∈ (["id", "name"] : List String)) :=
  import_func_projection
    (DF.mk ["id", "name", "extra"] [[some "1", some "x", some "y"]])
    ["id", "name"] ["id", "name"] [[some "1", some "x"]] (by rfl) "extra"

/-- C7: when no dataset column occurs among the introspected table columns,
`Util.import_func` raises the empty-projection `ValueError`: the trace shows
no insert statement executed and no commit, and the outcome is the
`EmptyProjection` error — the call never silently no-ops. -/
theorem import_func_empty_projection (df : DF) (tableCols : List String)
    (h : ∀ c ∈ df.cols, c ∉ tableCols) :
    import_func df tableCols = ⟨none, false, .error .emptyProjection⟩ := by
  have hk : projectedCols df.cols tableCols = [] := by
    unfold projectedCols
    rw [List.filter_eq_nil_iff]
    intro c hc
    simpa [List.contains] using h c hc
  unfold import_func
  rw [hk]

/-- C7 witness: a dataset with one column `foo` and one row, loaded against
a table whose columns are `id, name`, yields the empty-projection failure
with no insert and no commit. -/
theorem import_func_empty_projection_witness :
    import_func (DF.mk ["foo"] [[some "1"]]) ["id", "name"] =
      ⟨none, false, .error .emptyProjection⟩ :=
  import_func_empty_projection (DF.mk ["foo"] [[some "1"]]) ["id", "name"] (by decide)

/-- C10: a dataset with zero rows fails in `Util.import_func` even when its
columns do intersect the schema: pandas `DataFrame.empty` is true on an
empty row axis, so the same `ValueError` fires and the trace shows no
insert and no commit. -/
theorem import_func_empty_rows (df : DF) (tableCols : List String)
    (h0 : df.rows = []) (h1 : projectedCols df.cols tableCols ≠ []) :
    import_func df tableCols = ⟨none, false, .error .emptyProjection⟩ := by
  unfold import_func
  rcases hk : projectedCols df.cols tableCols with _ | ⟨c, cs⟩
  · exact absurd hk h1
  · rw [h0]
    rfl

/-- C10 witness: a zero-row dataset whose single column `id` is present in
the schema `id, name` still fails with the empty-projection error. -/
theorem import_func_empty_rows_witness :
    import_func (DF.mk ["id"] []) ["id", "name"] =
      ⟨none, false, .error .emptyProjection⟩ :=
  import_func_empty_rows (DF.mk ["id"] []) ["id", "name"] (by rfl) (by decide)

/-! ## Wide-to-Long Melter
(`Migration._import_budget_rad`, upload.py 185-201, and
`Migration._import_journal_entry`, upload.py 288-307)

Both melters, on the sanitized data frame with a 1-based surrogate `id`:

* pick the category-family columns — budget: `"rad" in col and
  "description" not in col` (lines 186-188); journal entry: `"RAD" in col
  and "Description" not in col` (lines 289-291), both Python substring
  tests on the already-lowercased column names;
* keep non-null values as strings (`applymap`, lines 189-191 / 293-295);
* per row, join the non-null values with `"|"` (lines 192-194 / 296-298);
* split the combined string on `"|"` and explode one output row per piece
  (lines 195-197 / 299-301);
* replace `""` by `NaN` and drop nulls (lines 199-200 / 303-304).

Cell values are `List Char` here to reason about the join/split. -/

/-- Python `"|".join(pieces)` on character lists. -/
def pyJoin (sep : Char) : List (List Char) → List Char
  | [] => []
  | [x] => x
  | x :: y :: t => x ++ sep :: pyJoin sep (y :: t)

/-- Python `s.split(sep)` (single-character separator) on character
lists: always returns at least one piece; `"".split(sep) == [""]`. -/
def pySplit (sep : Char) : List Char → List (List Char)
  | [] => [[]]
  | c :: rest =>
    let r := pySplit sep rest
    if c = sep then [] :: r else (c :: r.headI) :: r.tail

/-- Python substring test `pat in s` on character lists. -/
def hasSub (pat : List Char) : List Char → Bool
  | [] => pat.isEmpty
  | c :: rest => pat.isPrefixOf (c :: rest) || hasSub pat rest

/-- Python substring test on `String`s (`pat in s`). -/
def containsSub (s pat : String) : Bool :=
  hasSub pat.toList s.toList

/-- The budget melter's family predicate (upload.py 186-188). -/
def budgetKeep (c : String) : Bool :=
  containsSub c "rad" && !containsSub c "description"

/-- The journal-entry melter's family predicate (upload.py 289-291); note
the source tests the upper-case literals against the sanitized
(lowercased) column names. -/
def journalKeep (c : String) : Bool :=
  containsSub c "RAD" && !containsSub c "Description"

/-- The cells of one row in the family columns, in column order
(the positional selection `df_split[cols]`). -/
def selectCols (keep : String → Bool) (cols : List String)
    (row : List (Option (List Char))) : List (Option (List Char)) :=
  ((cols.zip row).filter (fun p => keep p.1)).map (fun p => p.2)

/-- One melted row: join the non-null family values with `'|'`, split on
`'|'`, emit one `(id, value)` pair per piece, dropping empty pieces
(the `replace("", NaN)` + `dropna` of lines 199-200 / 303-304). -/
def meltRow (i : Nat) (vals : List (Option (List Char))) : List (Nat × List Char) :=
  (pySplit '|' (pyJoin '|' (vals.filterMap id))).filterMap
    (fun v => if v = [] then none else some (i, v))

/-- The melter over a whole table: rows carry their surrogate id and their
cells aligned with `cols`; the family is selected by `keep`. -/
def meltTable (keep : String → Bool) (cols : List String)
    (rows : List (Nat × List (Option (List Char)))) : List (Nat × List Char) :=
  rows.flatMap (fun p => meltRow p.1 (selectCols keep cols p.2))

/-- A cell whose value does not contain the `'|'` delimiter (the spec's
standing assumption on the data). -/
def pipeFree (v : Option (List Char)) : Bool :=
  match v with
  | none => true
  | some s => !s.contains '|'

/-- The number of non-null, non-blank values among a row's family cells. -/
def countNonBlank (vals : List (Option (List Char))) : Nat :=
  (vals.filterMap id).countP (fun s => !s.isEmpty)

theorem pySplit_ne_nil (sep : Char) (l : List Char) : pySplit sep l ≠ [] := by
  cases l with
  | nil => simp [pySplit]
  | cons c rest =>
    simp only [pySplit]
    split <;> simp

theorem pySplit_no_sep {sep : Char} {x : List Char} (h : sep ∉ x) :
    pySplit sep x = [x] := by
  induction x with
  | nil => rfl
  | cons c t ih =>
    have hc : c ≠ sep := fun he => h (he ▸ List.mem_cons_self c t)
    have ht : sep ∉ t := fun hm => h (List.mem_cons_of_mem c hm)
    simp only [pySplit, ih ht, if_neg hc]
    rfl

theorem pySplit_append_cons {sep : Char} {x : List Char} (h : sep ∉ x) (t : List Char) :
    pySplit sep (x ++ sep :: t) = x :: pySplit sep t := by
  induction x with
  | nil => simp [pySplit]
  | cons c y ih =>
    have hc : c ≠ sep := fun he => h (he ▸ List.mem_cons_self c y)
    have hy : sep ∉ y := fun hm => h (List.mem_cons_of_mem c hm)
    simp only [List.cons_append, pySplit, List.append_eq, ih hy, if_neg hc]
    rfl

theorem pySplit_pyJoin {sep : Char} {ls : List (List Char)} (hne : ls ≠ [])
    (h : ∀ x ∈ ls, sep ∉ x) : pySplit sep (pyJoin sep ls) = ls := by
  induction ls with
  | nil => exact absurd rfl hne
  | cons x t ih =>
    cases t with
    | nil =>
      simp only [pyJoin]
      exact pySplit_no_sep (h x (List.mem_cons_self x []))
    | cons y u =>
      simp only [pyJoin]
      rw [pySplit_append_cons (h x (List.mem_cons_self x (y :: u)))]
      rw [ih (by simp) (fun z hz => h z (List.mem_cons_of_mem x hz))]

theorem meltRow_of_pipeFree {i : Nat} {vals : List (Option (List Char))}
    (h : ∀ v ∈ vals, pipeFree v = true) :
    meltRow i vals = (vals.filterMap id).filterMap
      (fun v => if v = [] then none else some (i, v)) := by
  unfold meltRow
  rcases hv : vals.filterMap id with _ | ⟨x, t⟩
  · rfl
  · rw [pySplit_pyJoin (by simp)]
    intro z hz
    have hzv : some z ∈ vals := by
      have := List.mem_filterMap.mp (hv ▸ hz)
      rcases this with ⟨o, ho, he⟩
      cases o with
      | none => simp at he
      | some w => exact (Option.some.injEq w z ▸ he) ▸ ho
    have := h (some z) hzv
    simp only [pipeFree, Bool.not_eq_true'] at this
    exact (by simpa using this : '|' ∉ z)

/-- C3 counterexample: a budget row whose two family cells are both
non-null — the blank string and "10" — has k = 2 non-null category values,
yet the melter emits exactly one output row (the blank is dropped by
`replace("", NaN).dropna()`), not two non-empty rows as the claim states. -/
theorem melt_blank_value_cex :
    (([some ([] : List Char), some ['1', '0']]).filterMap id).length = 2 ∧
      meltTable budgetKeep ["rad_1", "rad_2"]
        [(1, [some ([] : List Char), some ['1', '0']])] = [(1, ['1', '0'])] := by
  constructor
  · rfl
  · rfl

/-- C3 amended: for a melter row whose family cells never contain the `'|'`
delimiter (the spec's assumption on the data), the melter emits exactly one
output row per non-null *and non-blank* family value — blanks are dropped
together with nulls — and every emitted row carries the row's surrogate id
and a non-empty value; in particular a row whose family values are all null
or blank yields zero rows.  This covers both the budget and the
journal-entry melter via their family predicates. -/
theorem melt_cardinality_amended (keep : String → Bool) (cols : List String)
    (i : Nat) (row : List (Option (List Char)))
    (h : ∀ v ∈ selectCols keep cols row, pipeFree v = true) :
    (meltTable keep cols [(i, row)]).length = countNonBlank (selectCols keep cols row) ∧
      ∀ p ∈ meltTable keep cols [(i, row)], p.1 = i ∧ p.2 ≠ [] := by
  have hm : meltTable keep cols [(i, row)] = meltRow i (selectCols keep cols row) := by
    simp [meltTable]
  rw [hm, meltRow_of_pipeFree h]
  constructor
  · rw [countNonBlank]
    induction (selectCols keep cols row).filterMap id with
    | nil => rfl
    | cons x t ih =>
      by_cases hx : x = []
      · simp [hx, ih]
      · simp [List.filterMap_cons, List.countP_cons, hx, List.isEmpty_iff, ih]
  · intro p hp
    rcases List.mem_filterMap.mp hp with ⟨v, _, hv⟩
    by_cases hveq : v = []
    · simp [hveq] at hv
    · rw [if_neg hveq] at hv
      cases hv
      exact ⟨rfl, hveq⟩

/-- C3 witness: a concrete budget row with family columns `rad_1, rad_2`
and one description column: values "10" and null give exactly one melted
row `(1, "10")`, matching the non-blank count 1. -/
theorem melt_cardinality_amended_witness :
    (meltTable budgetKeep ["rad_1", "rad_2", "rad_description"]
        [(1, [some ['1', '0'], none, some ['x']])]).length =
      countNonBlank (selectCols budgetKeep ["rad_1", "rad_2", "rad_description"]
        [some ['1', '0'], none, some ['x']]) ∧
      ∀ p ∈ meltTable budgetKeep ["rad_1", "rad_2", "rad_description"]
        [(1, [some ['1', '0'], none, some ['x']])], p.1 = 1 ∧ p.2 ≠ [] :=
  melt_cardinality_amended budgetKeep ["rad_1", "rad_2", "rad_description"] 1
    [some ['1', '0'], none, some ['x']] (by decide)

/-! ## Type Coercer
(`Migration._import_budget`, upload.py 219-221, and
`Migration._import_journal_entry_rad`, upload.py 254-267)

Identifier columns:

* budget `account_no` (line 220):
  `astype(str).str.replace(".0", "")` — `astype(str)` renders a missing
  value as the string `"nan"`, and the literal (pandas `regex=False`)
  replace removes *every* occurrence of the substring `".0"`;
* journal-entry `account_no` / `business_unit_id` / `company_id`
  (lines 255-266): `fillna(0).astype(str).replace(r"\.0$", "", regex=True)`
  — a missing value becomes the string `"0"` (after the anchored strip),
  and the regex removes only a trailing `".0"`.

Amount columns (lines 221 and 267):
`str.replace(",", "").fillna(0).astype(float)` — commas stripped, missing
becomes `0`, the string parsed as a number (modelled exactly over `ℚ` for
plain nonnegative decimal literals, the values `float` accepts here). -/

/-- Python `s.replace(".0", "")`: remove every (leftmost-first,
non-overlapping) occurrence of the two-character substring `".0"`. -/
def stripDotZero : List Char → List Char
  | [] => []
  | [c] => [c]
  | c :: d :: rest =>
    if c = '.' ∧ d = '0' then stripDotZero rest
    else c :: stripDotZero (d :: rest)

/-- The regex substitution `re.sub(r"\.0$", "", s)`: remove one trailing
`".0"` if present. -/
def stripDotZeroSuffix (s : List Char) : List Char :=
  if ['.', '0'].isSuffixOf s then s.dropLast.dropLast else s

/-- Budget `account_no` coercion (upload.py 220): `astype(str)` turns a
missing cell into `"nan"`, then all `".0"` substrings are removed. -/
def budget_account_no (v : Option (List Char)) : List Char :=
  stripDotZero (match v with | none => "nan".toList | some s => s)

/-- Journal-entry identifier coercion (upload.py 254-266):
`fillna(0).astype(str)` turns a missing cell into `"0"` (or `"0.0"` for a
float column, stripped next), then the anchored regex removes one trailing
`".0"`. -/
def je_id_coerce (v : Option (List Char)) : List Char :=
  match v with
  | none => ['0']
  | some s => stripDotZeroSuffix s

theorem hasSub_append_self (pat l : List Char) : hasSub pat (l ++ pat) = true := by
  induction l with
  | nil =>
    cases pat with
    | nil => rfl
    | cons c t =>
      simp only [List.nil_append, hasSub, Bool.or_eq_true]
      exact Or.inl (List.isPrefixOf_iff_prefix.mpr (List.prefix_refl _))
  | cons c l ih =>
    simp only [List.cons_append, hasSub, Bool.or_eq_true]
    exact Or.inr ih

theorem hasSub_cons_false {pat : List Char} {c : Char} {rest : List Char}
    (h : hasSub pat (c :: rest) = false) :
    pat.isPrefixOf (c :: rest) = false ∧ hasSub pat rest = false := by
  simpa only [hasSub, Bool.or_eq_false_iff] using h

theorem stripDotZero_of_not_hasSub {s : List Char}
    (h : hasSub ['.', '0'] s = false) : stripDotZero s = s := by
  induction s using stripDotZero.induct with
  | case1 => rfl
  | case2 c => rfl
  | case3 c d rest hcd ih =>
    obtain ⟨hp, _⟩ := hasSub_cons_false h
    rcases hcd with ⟨hc, hd⟩
    subst hc hd
    simp [List.isPrefixOf] at hp
  | case4 c d rest hcd ih =>
    obtain ⟨_, hrest⟩ := hasSub_cons_false h
    rw [stripDotZero, if_neg hcd, ih hrest]

theorem stripDotZeroSuffix_append (s : List Char) :
    stripDotZeroSuffix (s ++ ['.', '0']) = s := by
  unfold stripDotZeroSuffix
  rw [if_pos]
  · rw [show s ++ ['.', '0'] = (s ++ ['.']) ++ ['0'] by simp]
    rw [List.dropLast_concat, List.dropLast_concat]
  · exact List.isSuffixOf_iff_suffix.mpr ⟨s, rfl⟩

theorem stripDotZeroSuffix_of_not_hasSub {s : List Char}
    (h : hasSub ['.', '0'] s = false) : stripDotZeroSuffix s = s := by
  unfold stripDotZeroSuffix
  rw [if_neg]
  intro hsuf
  obtain ⟨t, ht⟩ := List.isSuffixOf_iff_suffix.mp hsuf
  rw [← ht, hasSub_append_self] at h
  exact Bool.noConfusion h

/-- C5 counterexample: for the budget importer's `account_no`, a missing
value coerces to the string "nan" (not "0"), and the value "10.012" — which
has no trailing ".0" and should be left intact by the claimed coercion —
loses its interior ".0" and becomes "1012". -/
theorem budget_account_no_cex :
    budget_account_no none = ['n', 'a', 'n'] ∧
      ['n', 'a', 'n'] ≠ ['0'] ∧
      budget_account_no (some ['1', '0', '.', '0', '1', '2']) = ['1', '0', '1', '2'] ∧
      (['1', '0', '1', '2'] : List Char) ≠ ['1', '0', '.', '0', '1', '2'] := by
  refine ⟨rfl, by decide, rfl, by decide⟩

/-- C5 amended: the journal-entry importer's identifier columns
(`account_no`, `business_unit_id`, `company_id`) behave as the claim says —
exactly one trailing ".0" is stripped, everything else is left intact, and
a missing value becomes the string "0".  The budget importer's `account_no`
instead removes every occurrence of the substring ".0" and renders a
missing value as the string "nan". -/
theorem id_coercion_amended (s : List Char) (h : hasSub ['.', '0'] s = false) :
    je_id_coerce none = ['0'] ∧
      je_id_coerce (some (s ++ ['.', '0'])) = s ∧
      je_id_coerce (some s) = s ∧
      budget_account_no none = ['n', 'a', 'n'] ∧
      budget_account_no (some s) = s := by
  refine ⟨rfl, ?_, ?_, rfl, ?_⟩
  · show stripDotZeroSuffix (s ++ ['.', '0']) = s
    exact stripDotZeroSuffix_append s
  · show stripDotZeroSuffix s = s
    exact stripDotZeroSuffix_of_not_hasSub h
  · show stripDotZero s = s
    exact stripDotZero_of_not_hasSub h

/-- C5 amended witness: at the concrete identifier "7": "7.0" strips to
"7", "7" is untouched, missing becomes "0" for the journal-entry columns
and "nan" for the budget column. -/
theorem id_coercion_amended_witness :
    je_id_coerce none = ['0'] ∧
      je_id_coerce (some (['7'] ++ ['.', '0'])) = ['7'] ∧
      je_id_coerce (some ['7']) = ['7'] ∧
      budget_account_no none = ['n', 'a', 'n'] ∧
      budget_account_no (some ['7']) = ['7'] :=
  id_coercion_amended ['7'] (by decide)

/-! ## Amount coercion (upload.py 221 and 267) -/

/-- Python `s.replace(",", "")`. -/
def stripCommas (s : List Char) : List Char :=
  s.filter (fun c => c ≠ ',')

/-- The numeric value of a digit string (most significant first). -/
def digitsToNat (l : List Char) : Nat :=
  l.foldl (fun a c => a * 10 + (c.toNat - 48)) 0

/-- Python `float(s)` on the plain nonnegative decimal literals the amount
columns contain: digits, optionally a single `'.'` and fraction digits;
anything else fails (`none` models the `ValueError` of `astype(float)`).
The exact value is returned as a rational. -/
def parseDecimal (s : List Char) : Option ℚ :=
  match pySplit '.' s with
  | [w] => if w ≠ [] ∧ w.all Char.isDigit then some (digitsToNat w) else none
  | [w, f] =>
    if (w ≠ [] ∨ f ≠ []) ∧ w.all Char.isDigit ∧ f.all Char.isDigit then
      some ((digitsToNat w : ℚ) + (digitsToNat f : ℚ) / (10 : ℚ) ^ f.length)
    else none
  | _ => none

/-- The amount coercion `str.replace(",", "").fillna(0).astype(float)`
(upload.py 221 and 267): commas are stripped from a present value, a
missing value becomes `0`, and the result is parsed as a number. -/
def coerceAmount (v : Option (List Char)) : Option ℚ :=
  match v with
  | none => some 0
  | some s => parseDecimal (stripCommas s)

/-- C8: the currency coercion used by the budget and journal-entry
importers strips thousands separators and parses the rest as a number —
"1,234.50" coerces to the numeric value 1234.50 — and a blank (missing)
currency field coerces to 0. -/
theorem amount_coercion_scenarios :
    coerceAmount (some "1,234.50".toList) = some ((2469 : ℚ) / 2) ∧
      coerceAmount none = some 0 := by
  constructor
  · show parseDecimal (stripCommas "1,234.50".toList) = some ((2469 : ℚ) / 2)
    have h2 : pySplit '.' (stripCommas "1,234.50".toList) =
        [['1', '2', '3', '4'], ['5', '0']] := by rfl
    unfold parseDecimal
    rw [h2]
    have hw : digitsToNat ['1', '2', '3', '4'] = 1234 := by rfl
    have hf : digitsToNat ['5', '0'] = 50 := by rfl
    have hd1 : '1'.isDigit = true := by decide
    have hd2 : '2'.isDigit = true := by decide
    have hd3 : '3'.isDigit = true := by decide
    have hd4 : '4'.isDigit = true := by decide
    have hd5 : '5'.isDigit = true := by decide
    have hd0 : '0'.isDigit = true := by decide
    norm_num [hw, hf, hd1, hd2, hd3, hd4, hd5, hd0]
    intro h
    exact absurd h (by simp)
  · rfl

/-! ## Migration Orchestrator (`Migration.import_all`, upload.py 98-112)

`import_all` calls the ten `_import_*` methods one after another inside a
*single* `try` block; the sole `except` (lines 111-112) logs and ends the
method.  Each importer catches only its `pd.read_csv` failure (logging and
`return`-ing, e.g. lines 115-120); every error raised later in an importer
— in a transform step or re-raised by `Util.import_func` (line 433) —
propagates into `import_all`'s handler, so no later importer runs.

An importer invocation is abstracted by how its environment behaves:
`ok` (runs to completion), `readFail` (the CSV read raises — caught inside
the importer), `loadFail` (an error after the read — e.g. an insert or
empty-projection `ValueError` raised by `Util.import_func` — escapes the
importer). -/

/-- How one entity importer's run turns out. -/
inductive Step where
  | ok
  | readFail
  | loadFail
deriving DecidableEq, Repr

/-- One importer invocation: `readFail` is caught at the importer's own
`try`/`except` around `pd.read_csv` (upload.py 115-120 and analogues),
`loadFail` is an exception escaping the importer (e.g. `Util.import_func`
re-raises at line 433). -/
def runImporter : Step → Except Unit Unit
  | .ok => .ok ()
  | .readFail => .ok ()
  | .loadFail => .error ()

/-- `Migration.import_all` (upload.py 98-112) over the sequence of importer
behaviors: the number of importers actually invoked.  The single
`try`/`except` wrapping the whole sequence means the first escaping
exception ends the run. -/
def import_all (steps : List Step) : Nat :=
  match steps with
  | [] => 0
  | s :: rest =>
    1 + (match runImporter s with
         | .ok _ => import_all rest
         | .error _ => 0)

/-- C1 counterexample: with two importers where the first fails during its
load (an insert or empty-projection error), `import_all` invokes only the
first — the second importer is never attempted, contradicting the claim
that every subsequent importer is still invoked. -/
theorem import_all_halts_on_load_error_cex :
    import_all [Step.loadFail, Step.ok] ≠ [Step.loadFail, Step.ok].length := by
  decide

/-- C1 amended: failure isolation holds only for extract-read failures —
importers whose CSV read raises are skipped and the run continues — but a
per-entity error raised during load (insert error, empty-projection error)
escapes the importer into `import_all`'s single handler, which logs it and
invokes no further importer: exactly the importers up to and including the
failing one are attempted. -/
theorem import_all_isolation_amended (pre post : List Step)
    (h : Step.loadFail ∉ pre) :
    import_all (pre ++ Step.loadFail :: post) = pre.length + 1 ∧
      import_all pre = pre.length := by
  induction pre with
  | nil => exact ⟨rfl, rfl⟩
  | cons s t ih =>
    have hs : s ≠ Step.loadFail := fun he => h (he ▸ List.mem_cons_self s t)
    have ht : Step.loadFail ∉ t := fun hm => h (List.mem_cons_of_mem s hm)
    have hrun : runImporter s = .ok () := by
      cases s with
      | ok => rfl
      | readFail => rfl
      | loadFail => exact absurd rfl hs
    obtain ⟨ih1, ih2⟩ := ih ht
    refine ⟨?_, ?_⟩
    · have hu : import_all ((s :: t) ++ Step.loadFail :: post) =
          1 + import_all (t ++ Step.loadFail :: post) := by
        simp only [List.cons_append, import_all, hrun]
        rfl
      rw [hu, ih1, List.length_cons]
      omega
    · have hu : import_all (s :: t) = 1 + import_all t := by
        simp only [import_all, hrun]
      rw [hu, ih2, List.length_cons]
      omega

/-- C1 amended witness: importers behaving (readFail, loadFail, ok) — the
read failure is isolated and the run continues, but the load failure stops
it: two of the three importers are invoked, and a run of the prefix alone
invokes its single importer. -/
theorem import_all_isolation_amended_witness :
    import_all ([Step.readFail] ++ Step.loadFail :: [Step.ok]) =
        [Step.readFail].length + 1 ∧
      import_all [Step.readFail] = [Step.readFail].length :=
  import_all_isolation_amended [Step.readFail] [Step.ok] (by decide)

/-! ## Import order (`Migration.import_all`, upload.py 98-112)

The target tables in the order their loads are attempted.  Note the bodies
of the two journal-entry importers are swapped relative to their names:
`_import_journal_entry` (lines 272-310) builds the melted rad links and
loads table `journal_entry_rad` (line 309), while
`_import_journal_entry_rad` (lines 226-270) builds the entry rows and
loads table `journal_entry` (line 269). -/

/-- The table name passed to `Util.import_func` by each importer, in
`import_all`'s call order (upload.py 100-109 with the `table = ...` line of
each importer). -/
def importTableOrder : List String :=
  ["account",            -- _import_account, line 146
   "rad_type",           -- _import_rad_type, line 340
   "rad",                -- _import_rad, line 324
   "business_unit",      -- _import_business_unit, line 369
   "account_rad_type",   -- _import_account_rad_type, line 169
   "budget",             -- _import_budget, line 223
   "budget_rad",         -- _import_budget_rad, line 203
   "journal_entry_rad",  -- _import_journal_entry, line 309
   "journal_entry",      -- _import_journal_entry_rad, line 269
   "budget_entry_admin_view"]  -- _import_budget_entry_admin_view, line 385

/-- C2: the `budget` table is indeed loaded before `budget_rad`, but the
`journal_entry_rad` category-expansion table is loaded *before* the
`journal_entry` table it references — the bodies of `_import_journal_entry`
and `_import_journal_entry_rad` are swapped relative to their names, so
`import_all`'s intended topological order is violated for the
journal-entry pair. -/
theorem import_order_swapped :
    importTableOrder.indexOf "journal_entry_rad" <
        importTableOrder.indexOf "journal_entry" ∧
      importTableOrder.indexOf "budget" < importTableOrder.indexOf "budget_rad" := by
  decide

end Upload
